import Mathlib

/-! Analytics-App: API-key validation, key lifecycle and the summary engine.

A shallow embedding of `src/middleware/authApiKey.js`, `src/db.js` and
`src/routes/authRoutes.js`.  Handlers are pure functions from the request,
the clock readings and the state of the collaborators (validation cache,
relational store, Redis) to a response, the new state and the log of the
`db.query` calls issued.
-/

namespace AnalyticsApp

/-! ## JavaScript values -/

/-- Truthiness of a value that is `undefined` or a string: `!!v`. -/
def truthy (v : Option String) : Bool :=
  match v with
  | none => false
  | some s => s != ""

/-- The JavaScript expression `v || d` for `v` undefined or a string. -/
def orDefault (v : Option String) (d : String) : String :=
  match v with
  | none => d
  | some s => if s = "" then d else s

/-- A JavaScript `Map` with string keys: the entries in insertion order. -/
abbrev JsMap (β : Type) := List (String × β)

namespace JsMap

/-- The method `Map.prototype.has`. -/
def has {β : Type} (m : JsMap β) (k : String) : Bool :=
  m.any (fun p => p.1 == k)

/-- The method `Map.prototype.get`; `none` is `undefined`. -/
def get {β : Type} (m : JsMap β) (k : String) : Option β :=
  match m with
  | [] => none
  | (k', v) :: rest => if k' = k then some v else get rest k

/-- The method `Map.prototype.set`: an existing key keeps its position. -/
def set {β : Type} (m : JsMap β) (k : String) (v : β) : JsMap β :=
  match m with
  | [] => [(k, v)]
  | (k', v') :: rest => if k' = k then (k, v) :: rest else (k', v') :: set rest k v

/-- The method `Map.prototype.delete`. -/
def delete {β : Type} (m : JsMap β) (k : String) : JsMap β :=
  match m with
  | [] => []
  | (k', v) :: rest => if k' = k then delete rest k else (k', v) :: delete rest k

end JsMap

/-! ## The relational store -/

/-- Column `api_keys.status`. -/
inductive KeyStatus where
  | active
  | revoked
  deriving DecidableEq, Repr

/-- A row of `applications`. -/
structure Application where
  id : Nat
  user_id : Nat
  name : String
  domain : Option String
  deriving DecidableEq, Repr

/-- A row of `api_keys`. -/
structure ApiKeyRecord where
  id : Nat
  app_id : Nat
  key_hash : String
  status : KeyStatus
  deriving DecidableEq, Repr

/-- The two tables the key lifecycle works on. -/
structure Store where
  applications : List Application
  api_keys : List ApiKeyRecord
  deriving DecidableEq, Repr

/-- One logged `db.query(text, params)` call, parameters rendered as text. -/
structure QueryCall where
  text : String
  params : List String
  deriving DecidableEq, Repr

/-- Rows of `SELECT app_id FROM api_keys WHERE key_hash = $1 AND status = 'active'`. -/
def selectActiveAppIds (s : Store) (keyHash : String) : List Nat :=
  (s.api_keys.filter (fun r => r.key_hash == keyHash && r.status == KeyStatus.active)).map
    (fun r => r.app_id)

/-! ## `authApiKey` (src/middleware/authApiKey.js) -/

/-- A value of `apiKeyCache`. -/
structure CachedData where
  appId : Nat
  expiresAt : Nat
  deriving DecidableEq, Repr

/-- The module-level `apiKeyCache`. -/
abbrev ApiKeyCache := JsMap CachedData

/-- How the middleware ends: `next()` with `req.appId` set, or a JSON response. -/
inductive AuthResult where
  | next (appId : Nat)
  | status (code : Nat) (message : String)
  deriving DecidableEq, Repr

/-- Result of one middleware run: the ending, the cache afterwards and the
`db.query` calls issued. -/
structure AuthOutcome where
  result : AuthResult
  cache : ApiKeyCache
  queries : List QueryCall
  deriving DecidableEq, Repr

/-- The text of the lookup statement. -/
def authSelectText : String :=
  "SELECT app_id FROM api_keys WHERE key_hash = $1 AND status = 'active'"

/-- The constant `const cacheDuration = 5 * 60 * 1000`. -/
def cacheDuration : Nat := 5 * 60 * 1000

/-- Part 2 and 3 of `authApiKey`: the store lookup and the cache insert.
`db` is `none` when `db.query` rejects; `now2` is the `Date.now()` read at the insert. -/
def authFromStore (sha256 : String → String) (db : Option Store) (cache : ApiKeyCache)
    (apiKey : String) (now2 : Nat) : AuthOutcome :=
  let keyHash := sha256 apiKey
  let log := [QueryCall.mk authSelectText [keyHash]]
  match db with
  | none => ⟨AuthResult.status 500 "Server error during authentication.", cache, log⟩
  | some store =>
    match selectActiveAppIds store keyHash with
    | [] => ⟨AuthResult.status 401 "Invalid API Key.", cache, log⟩
    | app_id :: _ =>
      ⟨AuthResult.next app_id,
        cache.set apiKey ⟨app_id, now2 + cacheDuration⟩, log⟩

/-- The middleware `authApiKey`.  `apiKey` is `req.headers['x-api-key']`,
`now1` the `Date.now()` read at the expiry check, `now2` the one read at the insert. -/
def authApiKey (sha256 : String → String) (db : Option Store) (cache : ApiKeyCache)
    (apiKey : Option String) (now1 now2 : Nat) : AuthOutcome :=
  if truthy apiKey then
    let key := apiKey.getD ""
    if cache.has key then
      match cache.get key with
      | some cachedData =>
        if cachedData.expiresAt > now1 then
          ⟨AuthResult.next cachedData.appId, cache, []⟩
        else
          authFromStore sha256 db (cache.delete key) key now2
      -- not reached: `has` is true only when `get` finds the entry
      | none => authFromStore sha256 db (cache.delete key) key now2
    else
      authFromStore sha256 db cache key now2
  else
    ⟨AuthResult.status 401 "Access denied. No API Key provided.", cache, []⟩

/-- One invocation of the middleware as seen from outside. -/
structure AuthCall where
  apiKey : Option String
  db : Option Store
  now1 : Nat
  now2 : Nat

/-- The cache after a sequence of middleware runs, one after the other. -/
def runCalls (sha256 : String → String) (cache : ApiKeyCache) (calls : List AuthCall) :
    ApiKeyCache :=
  match calls with
  | [] => cache
  | c :: rest => runCalls sha256 (authApiKey sha256 c.db cache c.apiKey c.now1 c.now2).cache rest

/-- The store lookup of a call finds no active record for the hash:
the query rejects or returns no row. -/
def noActiveRecord (db : Option Store) (keyHash : String) : Prop :=
  match db with
  | none => True
  | some store => selectActiveAppIds store keyHash = []

/-- A store in which the key with hash `K` of application 7 is active. -/
def storeWithActiveKey : Store := ⟨[], [⟨1, 7, "K", KeyStatus.active⟩]⟩

/-- The same store after the key has been revoked. -/
def storeWithRevokedKey : Store := ⟨[], [⟨1, 7, "K", KeyStatus.revoked⟩]⟩

/-! ## `POST /revoke` (src/routes/authRoutes.js) -/

/-- A JSON response with a `message` body: `res.status(code).json({ message })`. -/
structure MessageResponse where
  status : Nat
  message : String
  deriving DecidableEq, Repr

/-- The join condition of the UPDATE for one `api_keys` row `k`: some row `a` of
`applications` has `k.app_id = a.id AND a.user_id = $2`. -/
def ownedBy (s : Store) (k : ApiKeyRecord) (userId : Nat) : Bool :=
  s.applications.any (fun a => k.app_id == a.id && a.user_id == userId)

/-- The full `WHERE` clause of the UPDATE for the target row `k`. -/
def revokeTarget (s : Store) (apiKeyId userId : Nat) (k : ApiKeyRecord) : Bool :=
  k.id == apiKeyId && ownedBy s k userId

/-- The text of the revocation statement. -/
def revokeUpdateText : String :=
  "UPDATE api_keys k\n       SET status = 'revoked'\n       FROM applications a\n       WHERE k.id = $1 \n         AND k.app_id = a.id\n         AND a.user_id = $2\n       RETURNING k.id"

/-- Effect of the UPDATE on the tables and its `RETURNING k.id` rows: every target row
that joins an application of the user is updated once and returned once. -/
def revokeUpdate (s : Store) (apiKeyId userId : Nat) : Store × List Nat :=
  ({ s with
      api_keys := s.api_keys.map (fun k =>
        if revokeTarget s apiKeyId userId k then { k with status := KeyStatus.revoked }
        else k) },
    (s.api_keys.filter (revokeTarget s apiKeyId userId)).map (fun k => k.id))

/-- Result of the revoke handler. -/
structure RevokeOutcome where
  response : MessageResponse
  store : Store
  queries : List QueryCall
  deriving DecidableEq, Repr

/-- The handler of `POST /revoke` behind `isAuthenticated`.  `apiKeyId` is
`req.body.apiKeyId` (`none` when the field is missing), `userId` is `req.user.id`,
`dbFails` says that `db.query` rejects. -/
def revoke (store : Store) (dbFails : Bool) (apiKeyId : Option Nat) (userId : Nat) :
    RevokeOutcome :=
  match apiKeyId with
  | none => ⟨⟨400, "API Key ID is required"⟩, store, []⟩
  | some 0 => ⟨⟨400, "API Key ID is required"⟩, store, []⟩
  | some i =>
    let log := [QueryCall.mk revokeUpdateText [toString i, toString userId]]
    if dbFails then
      ⟨⟨500, "Server error revoking key."⟩, store, log⟩
    else
      let result := revokeUpdate store i userId
      if result.2.length = 0 then
        ⟨⟨404, "API key not found or user not authorized."⟩, result.1, log⟩
      else
        ⟨⟨200, "API key successfully revoked."⟩, result.1, log⟩

/-! ## `POST /register` (src/routes/authRoutes.js) and the pool of src/db.js -/

/-- Transaction state of one pooled connection. -/
inductive ConnState where
  | idle
  | inTx (apps : List Application) (keys : List ApiKeyRecord)
  | aborted
  deriving DecidableEq, Repr

/-- The database server behind the pool: the committed tables, the state of every
connection of the pool and the two id sequences. -/
structure Pg where
  committed : Store
  conns : List ConnState
  nextAppId : Nat
  nextKeyId : Nat
  deriving DecidableEq, Repr

/-- The statements the register handler sends. -/
inductive Stmt where
  | begin
  | insertApplication (userId : Nat) (name : String) (domain : Option String)
  | insertApiKey (appId : Nat) (keyHash : String)
  | commit
  | rollback
  deriving DecidableEq, Repr

/-- One statement executed on connection `c`.  The second component is `none` when the
statement is rejected, otherwise the id it returns (0 when it returns none).  Outside a
transaction an insert is committed at once; inside one it is kept with the connection
until `COMMIT`; a rejected statement aborts the open transaction of its connection.
`fails` says that the server rejects this statement. -/
def execOn (pg : Pg) (c : Nat) (st : Stmt) (fails : Bool) : Pg × Option Nat :=
  let cs := pg.conns.getD c ConnState.idle
  if fails then
    match cs with
    | ConnState.inTx _ _ => ({ pg with conns := pg.conns.set c ConnState.aborted }, none)
    | _ => (pg, none)
  else
    match cs, st with
    | ConnState.aborted, Stmt.commit => ({ pg with conns := pg.conns.set c ConnState.idle }, some 0)
    | ConnState.aborted, Stmt.rollback =>
      ({ pg with conns := pg.conns.set c ConnState.idle }, some 0)
    | ConnState.aborted, _ => (pg, none)
    | ConnState.idle, Stmt.begin =>
      ({ pg with conns := pg.conns.set c (ConnState.inTx [] []) }, some 0)
    | ConnState.inTx _ _, Stmt.begin => (pg, some 0)
    | ConnState.idle, Stmt.insertApplication u n d =>
      ({ pg with
          committed := { pg.committed with
            applications := pg.committed.applications ++ [⟨pg.nextAppId, u, n, d⟩] }
          nextAppId := pg.nextAppId + 1 }, some pg.nextAppId)
    | ConnState.inTx apps keys, Stmt.insertApplication u n d =>
      ({ pg with
          conns := pg.conns.set c (ConnState.inTx (apps ++ [⟨pg.nextAppId, u, n, d⟩]) keys)
          nextAppId := pg.nextAppId + 1 }, some pg.nextAppId)
    | ConnState.idle, Stmt.insertApiKey a h =>
      ({ pg with
          committed := { pg.committed with
            api_keys := pg.committed.api_keys ++ [⟨pg.nextKeyId, a, h, KeyStatus.active⟩] }
          nextKeyId := pg.nextKeyId + 1 }, some 0)
    | ConnState.inTx apps keys, Stmt.insertApiKey a h =>
      ({ pg with
          conns := pg.conns.set c
            (ConnState.inTx apps (keys ++ [⟨pg.nextKeyId, a, h, KeyStatus.active⟩]))
          nextKeyId := pg.nextKeyId + 1 }, some 0)
    | ConnState.idle, Stmt.commit => (pg, some 0)
    | ConnState.inTx apps keys, Stmt.commit =>
      ({ pg with
          committed := ⟨pg.committed.applications ++ apps, pg.committed.api_keys ++ keys⟩
          conns := pg.conns.set c ConnState.idle }, some 0)
    | ConnState.idle, Stmt.rollback => (pg, some 0)
    | ConnState.inTx _ _, Stmt.rollback =>
      ({ pg with conns := pg.conns.set c ConnState.idle }, some 0)

/-- Response of the register handler. -/
structure RegisterResponse where
  status : Nat
  message : String
  appId : Option Nat
  apiKey : Option String
  deriving DecidableEq, Repr

/-- Result of the register handler: the response and the server afterwards. -/
structure RegisterOutcome where
  response : RegisterResponse
  pg : Pg
  deriving DecidableEq, Repr

/-- The response of the outer `catch` of the register handler. -/
def registerError : RegisterResponse :=
  ⟨500, "Server error registering application.", none, none⟩

/-- The inner `catch`: `await db.query('ROLLBACK'); throw e`, as call number `n`. -/
def registerRollback (pg : Pg) (pool : Nat → Nat) (fails : Nat → Bool) (n : Nat) :
    RegisterOutcome :=
  ⟨registerError, (execOn pg (pool n) Stmt.rollback (fails n)).1⟩

/-- The handler of `POST /register` behind `isAuthenticated`.  Every `db.query` is
`pool.query`: call number `n` of the handler runs on the connection `pool n` the pool
picks for it, and is rejected when `fails n`.  `randomHex` is
`crypto.randomBytes(24).toString('hex')`. -/
def register (sha256 : String → String) (randomHex : String) (pg : Pg) (pool : Nat → Nat)
    (fails : Nat → Bool) (name domain : Option String) (userId : Nat) : RegisterOutcome :=
  if truthy name then
    let apiKey := "key_live_" ++ randomHex
    let keyHash := sha256 apiKey
    match execOn pg (pool 0) Stmt.begin (fails 0) with
    | (pg0, none) => ⟨registerError, pg0⟩
    | (pg0, some _) =>
      match execOn pg0 (pool 1) (Stmt.insertApplication userId (name.getD "") domain)
          (fails 1) with
      | (pg1, none) => registerRollback pg1 pool fails 2
      | (pg1, some appId) =>
        match execOn pg1 (pool 2) (Stmt.insertApiKey appId keyHash) (fails 2) with
        | (pg2, none) => registerRollback pg2 pool fails 3
        | (pg2, some _) =>
          match execOn pg2 (pool 3) Stmt.commit (fails 3) with
          | (pg3, none) => registerRollback pg3 pool fails 4
          | (pg3, some _) =>
            ⟨⟨201, "Application registered successfully.", some appId, some apiKey⟩, pg3⟩
  else
    ⟨⟨400, "Application name is required", none, none⟩, pg⟩

/-- A server with two idle pooled connections and empty tables. -/
def twoIdleConnections : Pg := ⟨⟨[], []⟩, [ConnState.idle, ConnState.idle], 1, 1⟩

/-! ## `GET /event-summary` (src/routes/authRoutes.js) -/

/-- The part of `req.query` the handler reads; `none` is an absent field. -/
structure SummaryQuery where
  event : Option String
  startDate : Option String
  endDate : Option String
  app_id : Option String
  deriving DecidableEq, Repr

/-- The template literal that computes `cacheKey`. -/
def cacheKey (userId : Nat) (q : SummaryQuery) : String :=
  "summary:" ++ toString userId ++ ":" ++ orDefault q.app_id "all" ++ ":"
    ++ orDefault q.event "all" ++ ":" ++ orDefault q.startDate "none" ++ ":"
    ++ orDefault q.endDate "none"

/-- A query under construction: the text, the parameter array and the next index. -/
structure QueryBuild where
  text : String
  params : List String
  paramIndex : Nat
  deriving DecidableEq, Repr

/-- One block `if (v) { text += clause + paramIndex++; params.push(v); }`, where `clause`
ends with the dollar sign of the placeholder. -/
def addFilter (b : QueryBuild) (v : Option String) (clause : String) : QueryBuild :=
  if truthy v then
    ⟨b.text ++ clause ++ toString b.paramIndex, b.params ++ [v.getD ""], b.paramIndex + 1⟩
  else b

/-- Initial text of `baseQuery`. -/
def baseQueryHead : String :=
  "\n      SELECT \n        COUNT(*) AS count, \n        COUNT(DISTINCT e.user_id) AS \"uniqueUsers\",\n        e.device,\n        COUNT(e.device) AS \"deviceCount\"\n      FROM events e\n      JOIN applications a ON e.app_id = a.id\n      WHERE a.user_id = $1\n    "

/-- Initial text of `totalQuery`. -/
def totalQueryHead : String :=
  "\n      SELECT COUNT(*) AS count, COUNT(DISTINCT e.user_id) AS \"uniqueUsers\"\n      FROM events e\n      JOIN applications a ON e.app_id = a.id\n      WHERE a.user_id = $1\n    "

/-- Initial text of `deviceQuery`. -/
def deviceQueryHead : String :=
  "\n      SELECT device, COUNT(*) AS \"deviceCount\"\n      FROM events e\n      JOIN applications a ON e.app_id = a.id\n      WHERE a.user_id = $1\n    "

/-- The values of `baseQuery` and `params` as passed to the first `db.query`: all four optional filters,
then the grouping. -/
def baseQuery (userId : Nat) (q : SummaryQuery) : QueryCall :=
  let b0 : QueryBuild := ⟨baseQueryHead, [toString userId], 2⟩
  let b1 := addFilter b0 q.app_id " AND a.id = $"
  let b2 := addFilter b1 q.event " AND e.event_name = $"
  let b3 := addFilter b2 q.startDate " AND e.timestamp >= $"
  let b4 := addFilter b3 q.endDate " AND e.timestamp <= $"
  ⟨b4.text ++ " GROUP BY e.device", b4.params⟩

/-- The values of `totalQuery` and `totalParams` as passed to the second `db.query`: only the `app_id`
and `event` blocks exist in the source. -/
def totalQuery (userId : Nat) (q : SummaryQuery) : QueryCall :=
  let b0 : QueryBuild := ⟨totalQueryHead, [toString userId], 2⟩
  let b1 := addFilter b0 q.app_id " AND a.id = $"
  let b2 := addFilter b1 q.event " AND e.event_name = $"
  ⟨b2.text, b2.params⟩

/-- The value of `deviceQuery` as passed to the third `db.query`: the initial text plus the grouping,
executed with `totalParams`. -/
def deviceQuery (userId : Nat) (q : SummaryQuery) : QueryCall :=
  ⟨deviceQueryHead ++ " GROUP BY device", (totalQuery userId q).params⟩

/-- A result row: column name to text value, `none` for SQL NULL. -/
abbrev Row := List (String × Option String)

/-- Property access `row.col`; an absent column and NULL both give `none`, which is all
that `parseInt` and `||` distinguish. -/
def Row.col (r : Row) (name : String) : Option String :=
  match r with
  | [] => none
  | (n, v) :: rest => if n = name then v else Row.col rest name

/-- White space skipped by `parseInt`. -/
def isJsWhiteSpace (c : Char) : Bool :=
  c.toNat ∈ [9, 10, 11, 12, 13, 32, 160, 5760, 8232, 8233, 8239, 8287, 12288, 65279]
    || (8192 ≤ c.toNat && c.toNat ≤ 8202)

/-- Value of a string of decimal digits read left to right. -/
def digitsValue (ds : List Char) : Nat :=
  ds.foldl (fun acc c => acc * 10 + (c.toNat - 48)) 0

/-- A JavaScript number as `parseInt` can return it: `NaN`, a finite integer value or an
infinity. -/
inductive JsNumber where
  | nan
  | finite (value : Int)
  | infinity (negative : Bool)
  deriving DecidableEq, Repr

/-- Number of binary digits of `n`. -/
def bitLength (n : Nat) : Nat := (Nat.toDigits 2 n).length

/-- The double nearest to the natural number `n` (ties to the even significand of 53
bits), `none` when it is beyond the finite doubles. -/
def roundToDouble (n : Nat) : Option Nat :=
  if n < 2 ^ 53 then some n
  else
    let e := bitLength n - 53
    let q := n / 2 ^ e
    let r := n % 2 ^ e
    let half := 2 ^ (e - 1)
    let q' := if half < r || (r == half && q % 2 == 1) then q + 1 else q
    if bitLength (q' * 2 ^ e) ≤ 1024 then some (q' * 2 ^ e) else none

/-- The call `parseInt(v, 10)` on `undefined`, `null` or a string: leading white space,
an optional sign, then the longest run of decimal digits, read as the nearest double;
no digit gives `NaN`. -/
def parseInt (v : Option String) : JsNumber :=
  match v with
  | none => JsNumber.nan
  | some s =>
    let body := s.data.dropWhile isJsWhiteSpace
    let signed : Bool × List Char :=
      match body with
      | '-' :: rest => (true, rest)
      | '+' :: rest => (false, rest)
      | _ => (false, body)
    let ds := signed.2.takeWhile Char.isDigit
    if ds.isEmpty then JsNumber.nan
    else
      match roundToDouble (digitsValue ds) with
      | none => JsNumber.infinity signed.1
      | some m => if signed.1 then JsNumber.finite (-(m : Int)) else JsNumber.finite (m : Int)

/-- An integer-indexed property name: the canonical decimal text of a number below
`2^32 - 1`. -/
def arrayIndex (k : String) : Option Nat :=
  let n := digitsValue k.data
  if k.data.all Char.isDigit && k != "" && toString n == k && n < 4294967295 then some n
  else none

/-- Creation of the integer-indexed property `k` = `n`: it goes after the integer-indexed
properties with a smaller index and before everything else. -/
def insertIndexed {β : Type} (o : JsMap β) (k : String) (n : Nat) (v : β) : JsMap β :=
  match o with
  | [] => [(k, v)]
  | (k', v') :: rest =>
    match arrayIndex k' with
    | some n' =>
      if n' < n then (k', v') :: insertIndexed rest k n v else (k, v) :: (k', v') :: rest
    | none => (k, v) :: (k', v') :: rest

/-- The assignment `obj[k] = v` of a number to a property of a plain object, the object
given by its own properties in enumeration order: an existing property keeps its place,
a new integer-indexed one is sorted in front, any other new one goes last, and
`__proto__` is the inherited setter, which ignores a number. -/
def assignProperty {β : Type} (o : JsMap β) (k : String) (v : β) : JsMap β :=
  if k = "__proto__" then o
  else if o.has k then o.set k v
  else
    match arrayIndex k with
    | some n => insertIndexed o k n v
    | none => o ++ [(k, v)]

/-- The object `formattedResponse`.  `deviceData` lists the own properties in the order
in which `JSON.stringify` visits them. -/
structure SummaryPayload where
  event : String
  count : JsNumber
  uniqueUsers : JsNumber
  deviceData : JsMap JsNumber
  deriving DecidableEq, Repr

/-- Construction of `formattedResponse` from the first totals row and the device rows. -/
def formatResponse (q : SummaryQuery) (total0 : Row) (deviceRows : List Row) :
    SummaryPayload :=
  { event := orDefault q.event "all_events"
    count := parseInt (total0.col "count")
    uniqueUsers := parseInt (total0.col "uniqueUsers")
    deviceData := deviceRows.foldl
      (fun acc row => assignProperty acc (orDefault (row.col "device") "unknown")
        (parseInt (row.col "deviceCount"))) [] }

/-- A Redis value with the time at which it expires, in milliseconds. -/
structure RedisEntry where
  value : String
  expiresAt : Nat
  deriving DecidableEq, Repr

/-- The key space of the Redis server behind `redisClient`. -/
abbrev RedisData := JsMap RedisEntry

/-- Redis `GET key` at time `now`: the value while the entry has not expired. -/
def redisGet (d : RedisData) (key : String) (now : Nat) : Option String :=
  match d.get key with
  | some e => if now < e.expiresAt then some e.value else none
  | none => none

/-- Redis `SET key value EX seconds` at time `now`. -/
def redisSet (d : RedisData) (key value : String) (seconds now : Nat) : RedisData :=
  d.set key ⟨value, now + seconds * 1000⟩

/-- What the Redis connection does during one request. -/
structure RedisEnv where
  readyAtRead : Bool
  getThrows : Bool
  readyAtWrite : Bool
  setThrows : Bool
  deriving DecidableEq, Repr

/-- Body passed to `res.json`: the fresh `formattedResponse`, the value parsed from the
cache, or an error message. -/
inductive SummaryBody (J : Type) where
  | fresh (payload : SummaryPayload)
  | cached (json : J)
  | message (text : String)

/-- Response of the summary handler. -/
structure SummaryResponse (J : Type) where
  status : Nat
  body : SummaryBody J

/-- Result of the summary handler: response, Redis afterwards, `db.query` calls issued. -/
structure SummaryOutcome (J : Type) where
  response : SummaryResponse J
  redis : Option RedisData
  queries : List QueryCall

/-- Part 1 of the handler, the cache read: the parsed value on a hit.  A throwing `get`
or `JSON.parse` (`none`) is caught and logged. -/
def cacheRead {J : Type} (JSON_parse : String → Option J) (redisClient : Option RedisData)
    (env : RedisEnv) (key : String) (now : Nat) : Option J :=
  match redisClient with
  | none => none
  | some data =>
    if env.readyAtRead then
      if env.getThrows then none
      else
        match redisGet data key now with
        | some cachedData => if cachedData = "" then none else JSON_parse cachedData
        | none => none
    else none

/-- Part 3 of the handler, the cache write; a throwing `set` is caught and logged. -/
def cacheWrite (redisClient : Option RedisData) (env : RedisEnv) (key value : String)
    (now : Nat) : Option RedisData :=
  match redisClient with
  | none => none
  | some data =>
    if env.readyAtWrite then
      if env.setThrows then some data else some (redisSet data key value 300 now)
    else some data

/-- The response of the outer `catch`. -/
def summaryError {J : Type} : SummaryResponse J :=
  ⟨500, SummaryBody.message "Server error retrieving event summary."⟩

/-- The handler of `GET /event-summary` behind `isAuthenticated`.  `db` answers a
`db.query` call with its rows, or `none` when it rejects; `now1` and `now2` are the times
of the cache read and of the cache write. -/
def eventSummary {J : Type} (JSON_stringify : SummaryPayload → String)
    (JSON_parse : String → Option J) (redisClient : Option RedisData) (env : RedisEnv)
    (db : QueryCall → Option (List Row)) (userId : Nat) (q : SummaryQuery)
    (now1 now2 : Nat) : SummaryOutcome J :=
  let key := cacheKey userId q
  match cacheRead JSON_parse redisClient env key now1 with
  | some json => ⟨⟨200, SummaryBody.cached json⟩, redisClient, []⟩
  | none =>
    match db (baseQuery userId q) with
    | none => ⟨summaryError, redisClient, [baseQuery userId q]⟩
    | some _ =>
      match db (totalQuery userId q) with
      | none => ⟨summaryError, redisClient, [baseQuery userId q, totalQuery userId q]⟩
      | some totalRows =>
        match db (deviceQuery userId q) with
        | none =>
          ⟨summaryError, redisClient,
            [baseQuery userId q, totalQuery userId q, deviceQuery userId q]⟩
        | some deviceRows =>
          match totalRows with
          | [] =>
            ⟨summaryError, redisClient,
              [baseQuery userId q, totalQuery userId q, deviceQuery userId q]⟩
          | total0 :: _ =>
            let formattedResponse := formatResponse q total0 deviceRows
            ⟨⟨200, SummaryBody.fresh formattedResponse⟩,
              cacheWrite redisClient env key (JSON_stringify formattedResponse) now2,
              [baseQuery userId q, totalQuery userId q, deviceQuery userId q]⟩

/-- A filter field with the empty string read as omitted. -/
def normalise (v : Option String) : Option String :=
  match v with
  | none => none
  | some s => if s = "" then none else some s

/-- The text `needle` occurs in `s`. -/
def containsText (s needle : String) : Prop :=
  ∃ pre post : String, s = pre ++ needle ++ post

/-- The join of `events` to `applications` as it is written in the three queries. -/
def joinText : String := "FROM events e\n      JOIN applications a ON e.app_id = a.id"

/-- The ownership predicate as it is written in the three queries. -/
def ownerText : String := "WHERE a.user_id = $1\n"

/-- A logged query goes through the ownership join, has the predicate on
`a.user_id` bound to the first placeholder, and is executed with the owner id as
first parameter. -/
def OwnerScoped (userId : Nat) (c : QueryCall) : Prop :=
  containsText c.text joinText ∧ containsText c.text ownerText ∧
    c.params.head? = some (toString userId)

/-- The filter tuple with empty fields read as omitted. -/
def normalisedTuple (q : SummaryQuery) :
    Option String × Option String × Option String × Option String :=
  (normalise q.app_id, normalise q.event, normalise q.startDate, normalise q.endDate)

/-- The field, when present, contains no colon. -/
def noColon (v : Option String) : Prop :=
  ∀ s, v = some s → ':' ∉ s.data

/-- A Redis connection that is ready and whose commands do not throw. -/
def redisHealthy : RedisEnv := ⟨true, false, true, false⟩

/-- A store that answers every query with one row carrying all the columns read. -/
def sampleDb : QueryCall → Option (List Row) :=
  fun _ => some [[("count", some "1"), ("uniqueUsers", some "1"), ("device", none),
    ("deviceCount", some "1")]]

/-- The payload computed from `sampleDb` for a request without filters. -/
def samplePayload : SummaryPayload :=
  { event := "all_events", count := JsNumber.finite 1, uniqueUsers := JsNumber.finite 1,
    deviceData := [("unknown", JsNumber.finite 1)] }

/-- No field of the filter collides with the encoding of `cacheKey`: `app_id`, `event`
and `startDate` contain no colon, and no field is the sentinel that stands for its
omission. -/
def EncodingSafe (q : SummaryQuery) : Prop :=
  noColon q.app_id ∧ noColon q.event ∧ noColon q.startDate ∧
    q.app_id ≠ some "all" ∧ q.event ≠ some "all" ∧
    q.startDate ≠ some "none" ∧ q.endDate ≠ some "none"

/-! # Theorems -/

/-! ### Lemmas on the map model -/

theorem JsMap.has_eq_isSome {β : Type} (m : JsMap β) (k : String) :
    m.has k = (m.get k).isSome := by
  induction m with
  | nil => rfl
  | cons p rest ih =>
    obtain ⟨k', v⟩ := p
    by_cases h : k' = k
    · simp [JsMap.has, JsMap.get, h]
    · have ih' : rest.any (fun p => p.1 == k) = (JsMap.get rest k).isSome := ih
      simp [JsMap.has, JsMap.get, h, ih']

theorem JsMap.get_set_self {β : Type} (m : JsMap β) (k : String) (v : β) :
    (m.set k v).get k = some v := by
  induction m with
  | nil => simp [JsMap.set, JsMap.get]
  | cons p rest ih =>
    obtain ⟨k', v'⟩ := p
    by_cases h : k' = k
    · simp [JsMap.set, JsMap.get, h]
    · simp [JsMap.set, JsMap.get, h, ih]

theorem JsMap.get_set_other {β : Type} (m : JsMap β) (k k' : String) (v : β) (hne : k' ≠ k) :
    (m.set k v).get k' = m.get k' := by
  have hne' : ¬ k = k' := fun h => hne h.symm
  induction m with
  | nil => simp [JsMap.set, JsMap.get, hne']
  | cons p rest ih =>
    obtain ⟨k0, v0⟩ := p
    by_cases h : k0 = k
    · subst h
      simp [JsMap.set, JsMap.get, hne']
    · by_cases h2 : k0 = k'
      · subst h2
        simp [JsMap.set, JsMap.get, h]
      · simp [JsMap.set, JsMap.get, h, h2, ih]

theorem JsMap.get_delete_self {β : Type} (m : JsMap β) (k : String) :
    (m.delete k).get k = none := by
  induction m with
  | nil => rfl
  | cons p rest ih =>
    obtain ⟨k0, v0⟩ := p
    by_cases h : k0 = k
    · simp [JsMap.delete, h, ih]
    · simp [JsMap.delete, h, JsMap.get, ih]

theorem JsMap.get_delete_other {β : Type} (m : JsMap β) (k k' : String) (hne : k' ≠ k) :
    (m.delete k).get k' = m.get k' := by
  have hne' : ¬ k = k' := fun h => hne h.symm
  induction m with
  | nil => rfl
  | cons p rest ih =>
    obtain ⟨k0, v0⟩ := p
    by_cases h : k0 = k
    · subst h
      simp [JsMap.delete, JsMap.get, ih, hne']
    · by_cases h2 : k0 = k'
      · subst h2
        simp [JsMap.delete, h, JsMap.get]
      · simp [JsMap.delete, h, JsMap.get, h2, ih]

theorem JsMap.delete_of_get_none {β : Type} (m : JsMap β) (k : String) (h : m.get k = none) :
    m.delete k = m := by
  induction m with
  | nil => rfl
  | cons p rest ih =>
    obtain ⟨k0, v0⟩ := p
    by_cases h0 : k0 = k
    · simp [JsMap.get, h0] at h
    · simp only [JsMap.get, h0, if_false] at h
      simp [JsMap.delete, h0, ih h]

/-! ### Lemmas on `authApiKey` -/

theorem cacheDuration_eq : cacheDuration = 300000 := by decide

theorem truthy_some {k : String} (hk : k ≠ "") : truthy (some k) = true := by
  simp [truthy, hk]

theorem authFromStore_get_other (sha256 : String → String) (db : Option Store)
    (cache : ApiKeyCache) (key k' : String) (now2 : Nat) (hne : k' ≠ key) :
    (authFromStore sha256 db cache key now2).cache.get k' = cache.get k' := by
  unfold authFromStore
  cases db with
  | none => rfl
  | some store =>
    dsimp only
    cases selectActiveAppIds store (sha256 key) with
    | nil => rfl
    | cons a rest => exact JsMap.get_set_other cache key k' _ hne

theorem authFromStore_noActive (sha256 : String → String) (db : Option Store)
    (cache : ApiKeyCache) (key : String) (now2 : Nat)
    (hno : noActiveRecord db (sha256 key)) :
    (authFromStore sha256 db cache key now2).cache = cache ∧
      ∀ a, (authFromStore sha256 db cache key now2).result ≠ AuthResult.next a := by
  unfold authFromStore
  cases db with
  | none => exact ⟨rfl, fun a h => by cases h⟩
  | some store =>
    have h0 : selectActiveAppIds store (sha256 key) = [] := hno
    dsimp only
    rw [h0]
    exact ⟨rfl, fun a h => by cases h⟩

theorem authApiKey_hit (sha256 : String → String) (db : Option Store) (cache : ApiKeyCache)
    (k : String) (now1 now2 : Nat) (e : CachedData) (hk : k ≠ "")
    (hget : cache.get k = some e) (hlive : now1 < e.expiresAt) :
    authApiKey sha256 db cache (some k) now1 now2 = ⟨AuthResult.next e.appId, cache, []⟩ := by
  have hhas : JsMap.has cache k = true := by rw [JsMap.has_eq_isSome, hget]; rfl
  simp [authApiKey, truthy_some hk, hhas, hget, hlive]

theorem authApiKey_miss (sha256 : String → String) (db : Option Store) (cache : ApiKeyCache)
    (k : String) (now1 now2 : Nat) (hk : k ≠ "")
    (hmiss : ∀ e, cache.get k = some e → e.expiresAt ≤ now1) :
    authApiKey sha256 db cache (some k) now1 now2
      = authFromStore sha256 db (cache.delete k) k now2 := by
  cases hget : cache.get k with
  | none =>
    have hhas : JsMap.has cache k = false := by rw [JsMap.has_eq_isSome, hget]; rfl
    simp [authApiKey, truthy_some hk, hhas, JsMap.delete_of_get_none cache k hget]
  | some e =>
    have hhas : JsMap.has cache k = true := by rw [JsMap.has_eq_isSome, hget]; rfl
    have hexp : ¬ (now1 < e.expiresAt) := Nat.not_lt.mpr (hmiss e hget)
    simp [authApiKey, truthy_some hk, hhas, hget, hexp]

theorem authApiKey_get_other (sha256 : String → String) (db : Option Store)
    (cache : ApiKeyCache) (apiKey : Option String) (now1 now2 : Nat) (k' : String)
    (hne : apiKey ≠ some k') :
    (authApiKey sha256 db cache apiKey now1 now2).cache.get k' = cache.get k' := by
  unfold authApiKey
  by_cases ht : truthy apiKey = true
  · have hk : k' ≠ apiKey.getD "" := by
      intro h
      cases apiKey with
      | none => simp [truthy] at ht
      | some s => exact hne (by simp [h])
    simp only [ht, if_true]
    split
    · split
      · split
        · rfl
        · rw [authFromStore_get_other _ _ _ _ _ _ hk, JsMap.get_delete_other _ _ _ hk]
      · rw [authFromStore_get_other _ _ _ _ _ _ hk, JsMap.get_delete_other _ _ _ hk]
    · rw [authFromStore_get_other _ _ _ _ _ _ hk]
  · simp [ht]

/-- A live entry for `k` survives every run of the middleware that, when it is for `k`
itself, reads the clock before the entry expires. -/
theorem runCalls_keeps_live (sha256 : String → String) (k : String) (e : CachedData)
    (hk : k ≠ "") (calls : List AuthCall) :
    ∀ cache : ApiKeyCache, cache.get k = some e →
      (∀ c ∈ calls, c.apiKey = some k → c.now1 < e.expiresAt) →
      (runCalls sha256 cache calls).get k = some e := by
  induction calls with
  | nil => intro cache h _; exact h
  | cons c rest ih =>
    intro cache h hall
    unfold runCalls
    apply ih
    · by_cases hc : c.apiKey = some k
      · rw [hc, authApiKey_hit sha256 c.db cache k c.now1 c.now2 e hk h
          (hall c (List.mem_cons_self _ _) hc)]
        exact h
      · rw [authApiKey_get_other _ _ _ _ _ _ _ hc]; exact h
    · intro c' hc'; exact hall c' (List.mem_cons_of_mem _ hc')

/-- Entries for `k` never outlive `bound` when every run either inserts no later than
`bound - cacheDuration` or finds no active record for `k`. -/
theorem runCalls_expiry_bound (sha256 : String → String) (k : String) (bound : Nat)
    (calls : List AuthCall) :
    ∀ cache : ApiKeyCache, (∀ e, cache.get k = some e → e.expiresAt ≤ bound) →
      (∀ c ∈ calls, c.apiKey = some k →
        c.now2 + cacheDuration ≤ bound ∨ noActiveRecord c.db (sha256 k)) →
      ∀ e, (runCalls sha256 cache calls).get k = some e → e.expiresAt ≤ bound := by
  induction calls with
  | nil => intro cache h _; exact h
  | cons c rest ih =>
    intro cache h hall
    unfold runCalls
    apply ih
    · by_cases hc : c.apiKey = some k
      · rw [hc]
        by_cases hk : k = ""
        · subst hk
          simp [authApiKey, truthy]
          exact h
        · by_cases hlive : ∃ e0, cache.get k = some e0 ∧ c.now1 < e0.expiresAt
          · obtain ⟨e0, hget, hl⟩ := hlive
            rw [authApiKey_hit sha256 c.db cache k c.now1 c.now2 e0 hk hget hl]
            exact h
          · have hmiss : ∀ e, cache.get k = some e → e.expiresAt ≤ c.now1 := by
              intro e he
              exact Nat.not_lt.mp (fun hl => hlive ⟨e, he, hl⟩)
            rw [authApiKey_miss sha256 c.db cache k c.now1 c.now2 hk hmiss]
            rcases hall c (List.mem_cons_self _ _) hc with hb | hno
            · intro e he
              unfold authFromStore at he
              cases hdb : c.db with
              | none =>
                rw [hdb] at he
                simp [JsMap.get_delete_self] at he
              | some store =>
                rw [hdb] at he
                dsimp only at he
                cases hsel : selectActiveAppIds store (sha256 k) with
                | nil =>
                  rw [hsel] at he
                  simp [JsMap.get_delete_self] at he
                | cons a tl =>
                  rw [hsel] at he
                  simp only [JsMap.get_set_self] at he
                  cases he
                  exact hb
            · intro e he
              rw [(authFromStore_noActive sha256 c.db _ k c.now2 hno).1,
                JsMap.get_delete_self] at he
              cases he
      · rw [authApiKey_get_other _ _ _ _ _ _ _ hc]; exact h
    · intro c' hc'; exact hall c' (List.mem_cons_of_mem _ hc')

/-! ### The validation cache: claims -/

/-- C1: when `authApiKey` is run with a supplied key `k`, misses the validation cache
(no entry, or an entry whose `expiresAt` is not after the clock reading `t0`) and the store
returns an active record with application id `a`, the cache afterwards maps `k` to
`{appId: a, expiresAt: t + 300000}`, `t` being the clock reading at the insert.  Every later
run for `k` at a time `t' < t + 300000`, after any other runs of the middleware in between,
sets `req.appId = a` and calls `next()`, issues no store query and leaves the cache as it
is, whatever the store holds then (also when it rejects or no longer has the key). -/
theorem authApiKey_caches_for_ttl (sha256 : String → String) (store : Store)
    (cache : ApiKeyCache) (k : String) (t0 t a : Nat) (rest : List Nat)
    (hk : k ≠ "")
    (hmiss : ∀ e, cache.get k = some e → e.expiresAt ≤ t0)
    (hstore : selectActiveAppIds store (sha256 k) = a :: rest) :
    (authApiKey sha256 (some store) cache (some k) t0 t).result = AuthResult.next a ∧
    (authApiKey sha256 (some store) cache (some k) t0 t).cache.get k
      = some ⟨a, t + 300000⟩ ∧
    ∀ (later : List AuthCall) (db' : Option Store) (t' t'' : Nat),
      (∀ c ∈ later, c.apiKey = some k → c.now1 < t + 300000) → t' < t + 300000 →
      authApiKey sha256 db'
          (runCalls sha256 (authApiKey sha256 (some store) cache (some k) t0 t).cache later)
          (some k) t' t''
        = ⟨AuthResult.next a,
            runCalls sha256 (authApiKey sha256 (some store) cache (some k) t0 t).cache later,
            []⟩ := by
  have hfirst : authApiKey sha256 (some store) cache (some k) t0 t
      = ⟨AuthResult.next a, (cache.delete k).set k ⟨a, t + 300000⟩,
          [QueryCall.mk authSelectText [sha256 k]]⟩ := by
    rw [authApiKey_miss sha256 (some store) cache k t0 t hk hmiss]
    unfold authFromStore
    dsimp only
    rw [hstore, cacheDuration_eq]
  have hget : (authApiKey sha256 (some store) cache (some k) t0 t).cache.get k
      = some ⟨a, t + 300000⟩ := by
    rw [hfirst]; exact JsMap.get_set_self _ _ _
  refine ⟨by rw [hfirst], hget, ?_⟩
  intro later db' t' t'' hlater ht'
  have hkeep := runCalls_keeps_live sha256 k ⟨a, t + 300000⟩ hk later _ hget hlater
  exact authApiKey_hit sha256 db' _ k t' t'' ⟨a, t + 300000⟩ hk hkeep ht'

/-- C1 at a concrete input: key `K`, empty cache, one active record for application 7. -/
theorem authApiKey_caches_for_ttl_witness :
    ("K" ≠ "" ∧
      (∀ e, JsMap.get ([] : ApiKeyCache) "K" = some e → e.expiresAt ≤ 1000) ∧
      selectActiveAppIds ⟨[], [⟨1, 7, "K", KeyStatus.active⟩]⟩ ((fun s => s) "K") = 7 :: []) ∧
    ((authApiKey (fun s => s) (some ⟨[], [⟨1, 7, "K", KeyStatus.active⟩]⟩) [] (some "K")
        1000 1000).result = AuthResult.next 7 ∧
    (authApiKey (fun s => s) (some ⟨[], [⟨1, 7, "K", KeyStatus.active⟩]⟩) [] (some "K")
        1000 1000).cache.get "K" = some ⟨7, 1000 + 300000⟩ ∧
    ∀ (later : List AuthCall) (db' : Option Store) (t' t'' : Nat),
      (∀ c ∈ later, c.apiKey = some "K" → c.now1 < 1000 + 300000) → t' < 1000 + 300000 →
      authApiKey (fun s => s) db'
          (runCalls (fun s => s)
            (authApiKey (fun s => s) (some ⟨[], [⟨1, 7, "K", KeyStatus.active⟩]⟩) []
              (some "K") 1000 1000).cache later)
          (some "K") t' t''
        = ⟨AuthResult.next 7,
            runCalls (fun s => s)
              (authApiKey (fun s => s) (some ⟨[], [⟨1, 7, "K", KeyStatus.active⟩]⟩) []
                (some "K") 1000 1000).cache later,
            []⟩) :=
  ⟨⟨by decide, (fun e h => by cases h), by decide⟩,
    authApiKey_caches_for_ttl (fun s => s) ⟨[], [⟨1, 7, "K", KeyStatus.active⟩]⟩ [] "K"
      1000 1000 7 [] (by decide) (fun e h => by cases h) (by decide)⟩

/-- C2 fails as stated: the insert reads the clock after the store has answered.  A run
for `K` passes the expiry check at 900 and finds the active record, the key is revoked at
1000, and the run reads `Date.now()` = 1500 at its insert; the entry then expires at
301500, and a run at 301000 = 1000 + 300000, with the store holding the key revoked,
still reaches `next()` with application 7. -/
theorem authApiKey_revoked_key_outlives_ttl :
    selectActiveAppIds storeWithRevokedKey ((fun s => s) "K") = [] ∧
    1000 + 300000 ≤ 301000 ∧
    (authApiKey (fun s => s) (some storeWithRevokedKey)
        (runCalls (fun s => s) [] [⟨some "K", some storeWithActiveKey, 900, 1500⟩])
        (some "K") 301000 301000).result = AuthResult.next 7 := by
  decide

/-- C2 as amended: for a supplied key `k` for which the store holds no record with
matching hash and status `active`, and with the store query succeeding, `authApiKey`
answers 401 `Invalid API Key.` whenever the cache has no entry for `k` or the entry has
`expiresAt <= now`; the cache afterwards is the old one without the entry for `k`
(an expired entry is removed, nothing is inserted, other keys are untouched).
Cache hits never extend `expiresAt` and an entry is inserted only by a run that found an
active record, with `expiresAt` 300000 after the clock reading at its insert: starting
from the empty cache, if `m` bounds the insert clock of every run for `k` that found an
active record, then a run for `k` at any time `>= m + 300000` answers
401 `Invalid API Key.`, and never reaches `next()` whatever the store does as long as it
returns no active record. -/
theorem authApiKey_rejects_without_active_record (sha256 : String → String) (store : Store)
    (cache : ApiKeyCache) (k : String) (now1 now2 : Nat)
    (hk : k ≠ "")
    (hnone : selectActiveAppIds store (sha256 k) = [])
    (hmiss : ∀ e, cache.get k = some e → e.expiresAt ≤ now1) :
    ((authApiKey sha256 (some store) cache (some k) now1 now2).result
        = AuthResult.status 401 "Invalid API Key." ∧
      (authApiKey sha256 (some store) cache (some k) now1 now2).cache = cache.delete k ∧
      (authApiKey sha256 (some store) cache (some k) now1 now2).cache.get k = none ∧
      ∀ k', k' ≠ k →
        (authApiKey sha256 (some store) cache (some k) now1 now2).cache.get k'
          = cache.get k') ∧
    ∀ (m : Nat) (calls : List AuthCall) (t1 t2 : Nat),
      (∀ c ∈ calls, c.apiKey = some k →
        c.now2 ≤ m ∨ noActiveRecord c.db (sha256 k)) →
      m + 300000 ≤ t1 →
      (authApiKey sha256 (some store) (runCalls sha256 [] calls) (some k) t1 t2).result
        = AuthResult.status 401 "Invalid API Key." ∧
      ∀ (db : Option Store) (a : Nat), noActiveRecord db (sha256 k) →
        (authApiKey sha256 db (runCalls sha256 [] calls) (some k) t1 t2).result
          ≠ AuthResult.next a := by
  have hstoreRun : ∀ (c : ApiKeyCache) (t : Nat),
      authFromStore sha256 (some store) c k t
        = ⟨AuthResult.status 401 "Invalid API Key.", c,
            [QueryCall.mk authSelectText [sha256 k]]⟩ := by
    intro c t
    unfold authFromStore
    dsimp only
    rw [hnone]
  refine ⟨?_, ?_⟩
  · rw [authApiKey_miss sha256 (some store) cache k now1 now2 hk hmiss, hstoreRun]
    exact ⟨rfl, rfl, JsMap.get_delete_self _ _,
      fun k' hne => JsMap.get_delete_other _ _ _ hne⟩
  · intro m calls t1 t2 hcalls ht1
    have hb : ∀ e, (runCalls sha256 [] calls).get k = some e →
        e.expiresAt ≤ m + 300000 := by
      apply runCalls_expiry_bound sha256 k (m + 300000) calls []
      · intro e he; cases he
      · intro c hc hkey
        rcases hcalls c hc hkey with h | h
        · left
          rw [cacheDuration_eq]
          exact Nat.add_le_add_right h _
        · exact Or.inr h
    have hm : ∀ e, (runCalls sha256 [] calls).get k = some e → e.expiresAt ≤ t1 :=
      fun e he => Nat.le_trans (hb e he) ht1
    refine ⟨?_, ?_⟩
    · rw [authApiKey_miss sha256 (some store) _ k t1 t2 hk hm, hstoreRun]
    · intro db a hno
      rw [authApiKey_miss sha256 db _ k t1 t2 hk hm]
      exact (authFromStore_noActive sha256 db _ k t2 hno).2 a

/-- C2 as amended, at a concrete input: key `K` is cached by a run that inserts at 500, is
revoked at 1000, still passes from the cache at 2000 and is rejected at 301000. -/
theorem authApiKey_rejects_without_active_record_witness :
    ("K" ≠ "" ∧ selectActiveAppIds storeWithRevokedKey ((fun s => s) "K") = []) ∧
    (authApiKey (fun s => s) (some storeWithRevokedKey) [] (some "K") 0 0).result
      = AuthResult.status 401 "Invalid API Key." ∧
    (authApiKey (fun s => s) (some storeWithRevokedKey)
        (runCalls (fun s => s) []
          [⟨some "K", some storeWithActiveKey, 400, 500⟩,
            ⟨some "K", some storeWithRevokedKey, 2000, 2000⟩])
        (some "K") 301000 301000).result
      = AuthResult.status 401 "Invalid API Key." :=
  ⟨⟨by decide, by decide⟩,
    (authApiKey_rejects_without_active_record (fun s => s) storeWithRevokedKey [] "K" 0 0
      (by decide) (by decide) (fun e h => by cases h)).1.1,
    ((authApiKey_rejects_without_active_record (fun s => s) storeWithRevokedKey [] "K" 0 0
      (by decide) (by decide) (fun e h => by cases h)).2 1000
      [⟨some "K", some storeWithActiveKey, 400, 500⟩,
        ⟨some "K", some storeWithRevokedKey, 2000, 2000⟩] 301000 301000
      (by
        intro c hc _
        simp only [List.mem_cons, List.mem_singleton, List.not_mem_nil, or_false] at hc
        rcases hc with h | h
        · left; rw [h]; decide
        · right; rw [h]; show selectActiveAppIds storeWithRevokedKey "K" = []; decide)
      (by decide)).1⟩

/-! ### Revocation -/

theorem ownedBy_iff (s : Store) (k : ApiKeyRecord) (u : Nat) :
    ownedBy s k u = true ↔ ∃ a ∈ s.applications, a.id = k.app_id ∧ a.user_id = u := by
  simp only [ownedBy, List.any_eq_true, Bool.and_eq_true, beq_iff_eq]
  constructor
  · rintro ⟨a, ha, h1, h2⟩; exact ⟨a, ha, h1.symm, h2⟩
  · rintro ⟨a, ha, h1, h2⟩; exact ⟨a, ha, h1.symm, h2⟩

theorem revokeTarget_iff (s : Store) (i u : Nat) (k : ApiKeyRecord) :
    revokeTarget s i u k = true ↔
      k.id = i ∧ ∃ a ∈ s.applications, a.id = k.app_id ∧ a.user_id = u := by
  simp only [revokeTarget, Bool.and_eq_true, beq_iff_eq, ownedBy_iff]

theorem revoke_supplied (store : Store) (i u : Nat) (hi : i ≠ 0) :
    revoke store false (some i) u
      = if (revokeUpdate store i u).2.length = 0 then
          ⟨⟨404, "API key not found or user not authorized."⟩, (revokeUpdate store i u).1,
            [QueryCall.mk revokeUpdateText [toString i, toString u]]⟩
        else
          ⟨⟨200, "API key successfully revoked."⟩, (revokeUpdate store i u).1,
            [QueryCall.mk revokeUpdateText [toString i, toString u]]⟩ := by
  cases i with
  | zero => exact absurd rfl hi
  | succ n => simp [revoke]

theorem revokeUpdate_no_target (store : Store) (i u : Nat)
    (hno : ∀ k ∈ store.api_keys, revokeTarget store i u k = false) :
    revokeUpdate store i u = (store, []) := by
  have h1 : store.api_keys.map (fun k =>
      if revokeTarget store i u k then { k with status := KeyStatus.revoked } else k)
      = store.api_keys := by
    conv_rhs => rw [← List.map_id store.api_keys]
    apply List.map_congr_left
    intro k hk
    simp [hno k hk]
  have h2 : store.api_keys.filter (revokeTarget store i u) = [] := by
    rw [List.filter_eq_nil_iff]
    intro k hk
    simp [hno k hk]
  simp only [revokeUpdate, h1, h2, List.map_nil]

theorem revokeUpdate_returning_nil_iff (store : Store) (i u : Nat) :
    (revokeUpdate store i u).2.length = 0 ↔
      ∀ k ∈ store.api_keys, revokeTarget store i u k = false := by
  simp only [revokeUpdate, List.length_map, List.length_eq_zero, List.filter_eq_nil_iff,
    Bool.not_eq_true]

/-- C3: for every owner id `u` and supplied `apiKeyId` `i`, with the UPDATE executing:
the handler issues the single UPDATE; it sets `status` to `revoked` on exactly the
`api_keys` rows with id `i` whose application has `user_id = u` and leaves every other
row and the `applications` table as they were; it answers 404 if and only if no such row
exists, with one and the same response when the key is absent and when it belongs to
another user, and 200 otherwise.  A revoke by a non-owner leaves the store unchanged and
never answers 200, also when the statement fails. -/
theorem revoke_scoped_to_owner (store : Store) (i u : Nat) (hi : i ≠ 0) :
    (revoke store false (some i) u).queries
        = [QueryCall.mk revokeUpdateText [toString i, toString u]] ∧
    (revoke store false (some i) u).store.applications = store.applications ∧
    (revoke store false (some i) u).store.api_keys.length = store.api_keys.length ∧
    (∀ (j : Nat) (k : ApiKeyRecord), store.api_keys[j]? = some k →
      ((k.id = i ∧ ∃ a ∈ store.applications, a.id = k.app_id ∧ a.user_id = u) →
        (revoke store false (some i) u).store.api_keys[j]?
          = some { k with status := KeyStatus.revoked }) ∧
      (¬ (k.id = i ∧ ∃ a ∈ store.applications, a.id = k.app_id ∧ a.user_id = u) →
        (revoke store false (some i) u).store.api_keys[j]? = some k)) ∧
    ((revoke store false (some i) u).response
        = ⟨404, "API key not found or user not authorized."⟩ ↔
      ¬ ∃ k ∈ store.api_keys,
        k.id = i ∧ ∃ a ∈ store.applications, a.id = k.app_id ∧ a.user_id = u) ∧
    ((∃ k ∈ store.api_keys,
        k.id = i ∧ ∃ a ∈ store.applications, a.id = k.app_id ∧ a.user_id = u) →
      (revoke store false (some i) u).response = ⟨200, "API key successfully revoked."⟩) ∧
    ((∀ k ∈ store.api_keys, k.id ≠ i) →
      (revoke store false (some i) u).response
        = ⟨404, "API key not found or user not authorized."⟩) ∧
    ((∀ k ∈ store.api_keys, k.id = i →
        ¬ ∃ a ∈ store.applications, a.id = k.app_id ∧ a.user_id = u) →
      (revoke store false (some i) u).response
        = ⟨404, "API key not found or user not authorized."⟩) ∧
    ((¬ ∃ k ∈ store.api_keys,
        k.id = i ∧ ∃ a ∈ store.applications, a.id = k.app_id ∧ a.user_id = u) →
      ∀ dbFails : Bool, (revoke store dbFails (some i) u).store = store ∧
        (revoke store dbFails (some i) u).response.status ≠ 200) := by
  have hrev := revoke_supplied store i u hi
  have hnil := revokeUpdate_returning_nil_iff store i u
  have hiff : (revokeUpdate store i u).2.length = 0 ↔
      ¬ ∃ k ∈ store.api_keys,
        k.id = i ∧ ∃ a ∈ store.applications, a.id = k.app_id ∧ a.user_id = u := by
    rw [hnil]
    constructor
    · rintro h ⟨k, hk, hown⟩
      have := (revokeTarget_iff store i u k).mpr hown
      rw [h k hk] at this
      cases this
    · intro h k hk
      cases hb : revokeTarget store i u k with
      | false => rfl
      | true => exact absurd ⟨k, hk, (revokeTarget_iff store i u k).mp hb⟩ h
  have hstore : (revoke store false (some i) u).store = (revokeUpdate store i u).1 := by
    rw [hrev]; split <;> rfl
  have hresp404 : (¬ ∃ k ∈ store.api_keys,
        k.id = i ∧ ∃ a ∈ store.applications, a.id = k.app_id ∧ a.user_id = u) →
      (revoke store false (some i) u).response
        = ⟨404, "API key not found or user not authorized."⟩ := by
    intro h
    rw [hrev, if_pos (hiff.mpr h)]
  have hresp200 : (∃ k ∈ store.api_keys,
        k.id = i ∧ ∃ a ∈ store.applications, a.id = k.app_id ∧ a.user_id = u) →
      (revoke store false (some i) u).response = ⟨200, "API key successfully revoked."⟩ := by
    intro h
    rw [hrev, if_neg (fun h0 => hiff.mp h0 h)]
  refine ⟨?_, ?_, ?_, ?_, ⟨?_, hresp404⟩, hresp200, ?_, ?_, ?_⟩
  · rw [hrev]; split <;> rfl
  · rw [hstore]; rfl
  · rw [hstore]; simp [revokeUpdate]
  · intro j k hj
    rw [hstore]
    simp only [revokeUpdate, List.getElem?_map, hj, Option.map_some']
    constructor
    · intro hown
      rw [if_pos ((revokeTarget_iff store i u k).mpr hown)]
    · intro hown
      rw [if_neg (fun hb => hown ((revokeTarget_iff store i u k).mp hb))]
  · intro h hex
    rw [hresp200 hex] at h
    cases h
  · intro h
    exact hresp404 (fun ⟨k, hk, hid, _⟩ => h k hk hid)
  · intro h
    exact hresp404 (fun ⟨k, hk, hid, hown⟩ => h k hk hid hown)
  · intro h dbFails
    have hno : ∀ k ∈ store.api_keys, revokeTarget store i u k = false :=
      hnil.mp (hiff.mpr h)
    cases dbFails with
    | true =>
      cases i with
      | zero => exact absurd rfl hi
      | succ n => simp [revoke]
    | false =>
      rw [hstore, hresp404 h, revokeUpdate_no_target store i u hno]
      exact ⟨rfl, by decide⟩

/-- C3 at a concrete input: user 2 tries to revoke key 5 of an application of user 1. -/
theorem revoke_scoped_to_owner_witness :
    (5 ≠ 0) ∧
    (revoke ⟨[⟨10, 1, "Shop", none⟩], [⟨5, 10, "h", KeyStatus.active⟩]⟩ false (some 5) 2).response
      = ⟨404, "API key not found or user not authorized."⟩ ∧
    (revoke ⟨[⟨10, 1, "Shop", none⟩], [⟨5, 10, "h", KeyStatus.active⟩]⟩ false (some 5) 1).response
      = ⟨200, "API key successfully revoked."⟩ :=
  ⟨by decide,
    (revoke_scoped_to_owner ⟨[⟨10, 1, "Shop", none⟩], [⟨5, 10, "h", KeyStatus.active⟩]⟩ 5 2
      (by decide)).2.2.2.2.1.mpr (by decide),
    (revoke_scoped_to_owner ⟨[⟨10, 1, "Shop", none⟩], [⟨5, 10, "h", KeyStatus.active⟩]⟩ 5 1
      (by decide)).2.2.2.2.2.1 ⟨⟨5, 10, "h", KeyStatus.active⟩, by simp, rfl,
        ⟨10, 1, "Shop", none⟩, by simp, rfl, rfl⟩⟩

/-! ### Query construction -/

set_option maxRecDepth 100000 in
theorem baseQueryHead_join : containsText baseQueryHead joinText :=
  ⟨"\n      SELECT \n        COUNT(*) AS count, \n        COUNT(DISTINCT e.user_id) AS \"uniqueUsers\",\n        e.device,\n        COUNT(e.device) AS \"deviceCount\"\n      ",
    "\n      WHERE a.user_id = $1\n    ", by decide⟩

set_option maxRecDepth 100000 in
theorem baseQueryHead_owner : containsText baseQueryHead ownerText :=
  ⟨"\n      SELECT \n        COUNT(*) AS count, \n        COUNT(DISTINCT e.user_id) AS \"uniqueUsers\",\n        e.device,\n        COUNT(e.device) AS \"deviceCount\"\n      FROM events e\n      JOIN applications a ON e.app_id = a.id\n      ",
    "    ", by decide⟩

set_option maxRecDepth 100000 in
theorem totalQueryHead_join : containsText totalQueryHead joinText :=
  ⟨"\n      SELECT COUNT(*) AS count, COUNT(DISTINCT e.user_id) AS \"uniqueUsers\"\n      ",
    "\n      WHERE a.user_id = $1\n    ", by decide⟩

set_option maxRecDepth 100000 in
theorem totalQueryHead_owner : containsText totalQueryHead ownerText :=
  ⟨"\n      SELECT COUNT(*) AS count, COUNT(DISTINCT e.user_id) AS \"uniqueUsers\"\n      FROM events e\n      JOIN applications a ON e.app_id = a.id\n      ",
    "    ", by decide⟩

set_option maxRecDepth 100000 in
theorem deviceQueryHead_join : containsText deviceQueryHead joinText :=
  ⟨"\n      SELECT device, COUNT(*) AS \"deviceCount\"\n      ",
    "\n      WHERE a.user_id = $1\n    ", by decide⟩

set_option maxRecDepth 100000 in
theorem deviceQueryHead_owner : containsText deviceQueryHead ownerText :=
  ⟨"\n      SELECT device, COUNT(*) AS \"deviceCount\"\n      FROM events e\n      JOIN applications a ON e.app_id = a.id\n      ",
    "    ", by decide⟩

theorem containsText_append {s needle : String} (x : String) (h : containsText s needle) :
    containsText (s ++ x) needle := by
  obtain ⟨pre, post, rfl⟩ := h
  exact ⟨pre, post ++ x, by simp only [String.append_assoc]⟩

theorem addFilter_text (b : QueryBuild) (v : Option String) (clause : String) :
    ∃ x : String, (addFilter b v clause).text = b.text ++ x := by
  unfold addFilter
  split
  · exact ⟨clause ++ toString b.paramIndex, by simp only [String.append_assoc]⟩
  · exact ⟨"", by simp⟩

theorem addFilter_contains (b : QueryBuild) (v : Option String) (clause needle : String)
    (h : containsText b.text needle) : containsText (addFilter b v clause).text needle := by
  obtain ⟨x, hx⟩ := addFilter_text b v clause
  rw [hx]
  exact containsText_append x h

theorem addFilter_head (b : QueryBuild) (v : Option String) (clause : String) (p : String)
    (h : b.params.head? = some p) : (addFilter b v clause).params.head? = some p := by
  unfold addFilter
  split
  · cases hp : b.params with
    | nil => rw [hp] at h; cases h
    | cons a rest => rw [hp] at h; simpa using h
  · exact h

theorem baseQuery_ownerScoped (userId : Nat) (q : SummaryQuery) :
    OwnerScoped userId (baseQuery userId q) := by
  refine ⟨?_, ?_, ?_⟩
  · exact containsText_append _ (addFilter_contains _ _ _ _ (addFilter_contains _ _ _ _
      (addFilter_contains _ _ _ _ (addFilter_contains _ _ _ _ baseQueryHead_join))))
  · exact containsText_append _ (addFilter_contains _ _ _ _ (addFilter_contains _ _ _ _
      (addFilter_contains _ _ _ _ (addFilter_contains _ _ _ _ baseQueryHead_owner))))
  · exact addFilter_head _ _ _ _ (addFilter_head _ _ _ _ (addFilter_head _ _ _ _
      (addFilter_head _ _ _ _ rfl)))

theorem totalQuery_ownerScoped (userId : Nat) (q : SummaryQuery) :
    OwnerScoped userId (totalQuery userId q) := by
  refine ⟨?_, ?_, ?_⟩
  · exact addFilter_contains _ _ _ _ (addFilter_contains _ _ _ _ totalQueryHead_join)
  · exact addFilter_contains _ _ _ _ (addFilter_contains _ _ _ _ totalQueryHead_owner)
  · exact addFilter_head _ _ _ _ (addFilter_head _ _ _ _ rfl)

theorem deviceQuery_ownerScoped (userId : Nat) (q : SummaryQuery) :
    OwnerScoped userId (deviceQuery userId q) := by
  refine ⟨?_, ?_, ?_⟩
  · exact containsText_append _ deviceQueryHead_join
  · exact containsText_append _ deviceQueryHead_owner
  · exact (totalQuery_ownerScoped userId q).2.2

/-- C4: for every event-summary request (any presence and value of `app_id`, `event`,
`startDate`, `endDate`, any state of Redis and of the store), every query the handler
sends joins `events` to `applications`, contains the predicate `a.user_id = $1` and is
executed with the session owner id as first parameter; this holds of the grouped base
query, of the totals query and of the device-breakdown query. -/
theorem eventSummary_queries_owner_scoped {J : Type} (JSON_stringify : SummaryPayload → String)
    (JSON_parse : String → Option J) (redisClient : Option RedisData) (env : RedisEnv)
    (db : QueryCall → Option (List Row)) (userId : Nat) (q : SummaryQuery)
    (now1 now2 : Nat) :
    (∀ c ∈ (eventSummary JSON_stringify JSON_parse redisClient env db userId q
        now1 now2).queries, OwnerScoped userId c) ∧
    OwnerScoped userId (baseQuery userId q) ∧
    OwnerScoped userId (totalQuery userId q) ∧
    OwnerScoped userId (deviceQuery userId q) := by
  have hb := baseQuery_ownerScoped userId q
  have ht := totalQuery_ownerScoped userId q
  have hd := deviceQuery_ownerScoped userId q
  refine ⟨?_, hb, ht, hd⟩
  intro c hc
  unfold eventSummary at hc
  dsimp only at hc
  split at hc
  · cases hc
  · split at hc
    · simp only [List.mem_singleton] at hc
      rw [hc]; exact hb
    · split at hc
      · simp only [List.mem_cons, List.mem_singleton, List.not_mem_nil, or_false] at hc
        rcases hc with h | h <;> rw [h] <;> assumption
      · split at hc
        · simp only [List.mem_cons, List.mem_singleton, List.not_mem_nil, or_false] at hc
          rcases hc with h | h | h <;> rw [h] <;> assumption
        · split at hc
          · simp only [List.mem_cons, List.mem_singleton, List.not_mem_nil, or_false] at hc
            rcases hc with h | h | h <;> rw [h] <;> assumption
          · simp only [List.mem_cons, List.mem_singleton, List.not_mem_nil, or_false] at hc
            rcases hc with h | h | h <;> rw [h] <;> assumption

set_option maxRecDepth 100000 in
/-- C5 at the failing input: with only `startDate` and `endDate` present the totals query
is the bare ownership query with the owner id as only parameter, while the grouped base
query of the same request carries both date predicates. -/
theorem totalQuery_drops_date_filters :
    totalQuery 1 ⟨none, some "2024-01-01", some "2024-12-31", none⟩
        = ⟨totalQueryHead, ["1"]⟩ ∧
    baseQuery 1 ⟨none, some "2024-01-01", some "2024-12-31", none⟩
        = ⟨baseQueryHead ++ " AND e.timestamp >= $2 AND e.timestamp <= $3 GROUP BY e.device",
            ["1", "2024-01-01", "2024-12-31"]⟩ := by
  decide

set_option maxRecDepth 100000 in
/-- C6 at the failing input: with `app_id` present the device-breakdown query has the
ownership predicate only, and is executed with two parameters, while the totals query of
the same request has the predicate on `a.id` bound to the second placeholder. -/
theorem deviceQuery_has_no_filters :
    deviceQuery 1 ⟨none, none, none, some "7"⟩
        = ⟨deviceQueryHead ++ " GROUP BY device", ["1", "7"]⟩ ∧
    totalQuery 1 ⟨none, none, none, some "7"⟩
        = ⟨totalQueryHead ++ " AND a.id = $2", ["1", "7"]⟩ := by
  decide

/-! ### The summary cache -/

theorem orDefault_congr (v1 v2 : Option String) (d : String)
    (h : normalise v1 = normalise v2) : orDefault v1 d = orDefault v2 d := by
  cases v1 with
  | none =>
    cases v2 with
    | none => rfl
    | some s2 =>
      by_cases h2 : s2 = ""
      · simp [orDefault, h2]
      · simp [normalise, h2] at h
  | some s1 =>
    cases v2 with
    | none =>
      by_cases h1 : s1 = ""
      · simp [orDefault, h1]
      · simp [normalise, h1] at h
    | some s2 =>
      by_cases h1 : s1 = ""
      · by_cases h2 : s2 = ""
        · simp [orDefault, h1, h2]
        · simp [normalise, h1, h2] at h
      · by_cases h2 : s2 = ""
        · simp [normalise, h1, h2] at h
        · simp [normalise, h1, h2] at h
          simp [orDefault, h1, h2, h]

theorem cacheKey_congr (userId : Nat) (q1 q2 : SummaryQuery)
    (h : normalisedTuple q1 = normalisedTuple q2) : cacheKey userId q1 = cacheKey userId q2 := by
  simp only [normalisedTuple, Prod.mk.injEq] at h
  obtain ⟨ha, he, hs, hd⟩ := h
  simp only [cacheKey, orDefault_congr _ _ _ ha, orDefault_congr _ _ _ he,
    orDefault_congr _ _ _ hs, orDefault_congr _ _ _ hd]

theorem eventSummary_of_hit {J : Type} (JSON_stringify : SummaryPayload → String)
    (JSON_parse : String → Option J) (redisClient : Option RedisData) (env : RedisEnv)
    (db : QueryCall → Option (List Row)) (userId : Nat) (q : SummaryQuery)
    (now1 now2 : Nat) (j : J)
    (h : cacheRead JSON_parse redisClient env (cacheKey userId q) now1 = some j) :
    eventSummary JSON_stringify JSON_parse redisClient env db userId q now1 now2
      = ⟨⟨200, SummaryBody.cached j⟩, redisClient, []⟩ := by
  unfold eventSummary
  simp only [h]

theorem eventSummary_of_miss {J : Type} (JSON_stringify : SummaryPayload → String)
    (JSON_parse : String → Option J) (redisClient : Option RedisData) (env : RedisEnv)
    (db : QueryCall → Option (List Row)) (userId : Nat) (q : SummaryQuery)
    (now1 now2 : Nat) (rows1 totals rows3 : List Row) (total0 : Row)
    (h : cacheRead JSON_parse redisClient env (cacheKey userId q) now1 = none)
    (h1 : db (baseQuery userId q) = some rows1)
    (h2 : db (totalQuery userId q) = some (total0 :: totals))
    (h3 : db (deviceQuery userId q) = some rows3) :
    eventSummary JSON_stringify JSON_parse redisClient env db userId q now1 now2
      = ⟨⟨200, SummaryBody.fresh (formatResponse q total0 rows3)⟩,
          cacheWrite redisClient env (cacheKey userId q)
            (JSON_stringify (formatResponse q total0 rows3)) now2,
          [baseQuery userId q, totalQuery userId q, deviceQuery userId q]⟩ := by
  unfold eventSummary
  simp only [h, h1, h2, h3]

theorem eventSummary_fresh_redis {J : Type} (JSON_stringify : SummaryPayload → String)
    (JSON_parse : String → Option J) (redisClient : Option RedisData) (env : RedisEnv)
    (db : QueryCall → Option (List Row)) (userId : Nat) (q : SummaryQuery)
    (now1 now2 : Nat) (p : SummaryPayload)
    (h : (eventSummary JSON_stringify JSON_parse redisClient env db userId q
        now1 now2).response = ⟨200, SummaryBody.fresh p⟩) :
    (eventSummary JSON_stringify JSON_parse redisClient env db userId q now1 now2).redis
      = cacheWrite redisClient env (cacheKey userId q) (JSON_stringify p) now2 := by
  unfold eventSummary at h ⊢
  dsimp only at h ⊢
  split at h
  · simp at h
  · split at h
    · simp [summaryError] at h
    · split at h
      · simp [summaryError] at h
      · split at h
        · simp [summaryError] at h
        · split at h
          · simp [summaryError] at h
          · simp only [SummaryResponse.mk.injEq, SummaryBody.fresh.injEq, true_and] at h
            rw [h]

theorem redisGet_after_set (d : RedisData) (key value : String) (seconds now now' : Nat)
    (h : now' < now + seconds * 1000) :
    redisGet (redisSet d key value seconds now) key now' = some value := by
  simp [redisGet, redisSet, JsMap.get_set_self, h]

/-- C8: two event-summary requests of one owner whose filters agree once an empty string
is read as an omitted field compute the same `cacheKey`; and if the first request computed
payload `p` and completed with a successful cache write, the second request, reading the
cache the first one left within 300 seconds of the write over a ready connection, answers
200 with the JSON round-trip of `p`, issues no store query and leaves Redis as it is. -/
theorem eventSummary_second_request_hits_cache {J : Type}
    (JSON_stringify : SummaryPayload → String) (JSON_parse : String → Option J)
    (userId : Nat) (q1 q2 : SummaryQuery)
    (hsame : normalisedTuple q1 = normalisedTuple q2) :
    cacheKey userId q1 = cacheKey userId q2 ∧
    ∀ (data : RedisData) (env1 env2 : RedisEnv) (db1 db2 : QueryCall → Option (List Row))
      (t1 t1' t2 t2' : Nat) (p : SummaryPayload) (j : J),
      (eventSummary JSON_stringify JSON_parse (some data) env1 db1 userId q1
          t1 t1').response = ⟨200, SummaryBody.fresh p⟩ →
      env1.readyAtWrite = true → env1.setThrows = false →
      env2.readyAtRead = true → env2.getThrows = false →
      t2 < t1' + 300000 →
      JSON_stringify p ≠ "" → JSON_parse (JSON_stringify p) = some j →
      eventSummary JSON_stringify JSON_parse
          (eventSummary JSON_stringify JSON_parse (some data) env1 db1 userId q1
            t1 t1').redis env2 db2 userId q2 t2 t2'
        = ⟨⟨200, SummaryBody.cached j⟩,
            (eventSummary JSON_stringify JSON_parse (some data) env1 db1 userId q1
              t1 t1').redis, []⟩ := by
  have hkey := cacheKey_congr userId q1 q2 hsame
  refine ⟨hkey, ?_⟩
  intro data env1 env2 db1 db2 t1 t1' t2 t2' p j hfirst hw1 hw2 hr1 hr2 httl hstr hparse
  have hredis := eventSummary_fresh_redis JSON_stringify JSON_parse (some data) env1 db1
    userId q1 t1 t1' p hfirst
  have hwrite : cacheWrite (some data) env1 (cacheKey userId q1) (JSON_stringify p) t1'
      = some (redisSet data (cacheKey userId q1) (JSON_stringify p) 300 t1') := by
    simp [cacheWrite, hw1, hw2]
  rw [hredis, hwrite]
  apply eventSummary_of_hit
  rw [← hkey]
  have hget := redisGet_after_set data (cacheKey userId q1) (JSON_stringify p) 300 t1' t2
    (by omega)
  simp [cacheRead, hr1, hr2, hget, hstr, hparse]

/-- C8 at a concrete input: a request without filters, then one with an empty `event`. -/
theorem eventSummary_second_request_hits_cache_witness :
    normalisedTuple ⟨none, none, none, none⟩ = normalisedTuple ⟨some "", none, none, none⟩ ∧
    cacheKey 1 ⟨none, none, none, none⟩ = cacheKey 1 ⟨some "", none, none, none⟩ ∧
    eventSummary (fun _ => "p") (fun s => some s)
        (eventSummary (fun _ => "p") (fun s => some s) (some []) redisHealthy sampleDb 1
          ⟨none, none, none, none⟩ 0 0).redis redisHealthy (fun _ => none) 1
        ⟨some "", none, none, none⟩ 1000 1000
      = ⟨⟨200, SummaryBody.cached "p"⟩,
          (eventSummary (fun _ => "p") (fun s => some s) (some []) redisHealthy sampleDb 1
            ⟨none, none, none, none⟩ 0 0).redis, []⟩ :=
  ⟨by decide,
    (eventSummary_second_request_hits_cache (fun _ => "p") (fun s => some s) 1
      ⟨none, none, none, none⟩ ⟨some "", none, none, none⟩ (by decide)).1,
    (eventSummary_second_request_hits_cache (fun _ => "p") (fun s => some s) 1
      ⟨none, none, none, none⟩ ⟨some "", none, none, none⟩ (by decide)).2
      [] redisHealthy redisHealthy sampleDb (fun _ => none) 0 0 1000 1000 samplePayload "p"
      (by rfl) rfl rfl rfl rfl (by decide) (by decide) rfl⟩

/-- C9: when the three store queries succeed, the handler answers 200 with the payload
built from the store rows whenever the Redis client is undefined, is not ready, or its
`get` throws, and also when its `set` throws after a read that found nothing; that is the
response given over a healthy connection to an empty cache.  Whatever Redis does, the
status is 200. -/
theorem eventSummary_survives_cache_failure {J : Type}
    (JSON_stringify : SummaryPayload → String) (JSON_parse : String → Option J)
    (db : QueryCall → Option (List Row)) (userId : Nat) (q : SummaryQuery)
    (now1 now2 : Nat) (rows1 totals rows3 : List Row) (total0 : Row)
    (h1 : db (baseQuery userId q) = some rows1)
    (h2 : db (totalQuery userId q) = some (total0 :: totals))
    (h3 : db (deviceQuery userId q) = some rows3) :
    (∀ data : RedisData, data.get (cacheKey userId q) = none →
      (eventSummary JSON_stringify JSON_parse (some data) redisHealthy db userId q
          now1 now2).response
        = ⟨200, SummaryBody.fresh (formatResponse q total0 rows3)⟩) ∧
    (∀ env : RedisEnv,
      (eventSummary JSON_stringify JSON_parse none env db userId q now1 now2).response
        = ⟨200, SummaryBody.fresh (formatResponse q total0 rows3)⟩) ∧
    (∀ (data : RedisData) (env : RedisEnv), env.readyAtRead = false →
      (eventSummary JSON_stringify JSON_parse (some data) env db userId q now1 now2).response
        = ⟨200, SummaryBody.fresh (formatResponse q total0 rows3)⟩) ∧
    (∀ (data : RedisData) (env : RedisEnv), env.getThrows = true →
      (eventSummary JSON_stringify JSON_parse (some data) env db userId q now1 now2).response
        = ⟨200, SummaryBody.fresh (formatResponse q total0 rows3)⟩) ∧
    (∀ (data : RedisData) (env : RedisEnv), env.setThrows = true →
      redisGet data (cacheKey userId q) now1 = none →
      (eventSummary JSON_stringify JSON_parse (some data) env db userId q now1 now2).response
        = ⟨200, SummaryBody.fresh (formatResponse q total0 rows3)⟩) ∧
    (∀ (redisClient : Option RedisData) (env : RedisEnv),
      (eventSummary JSON_stringify JSON_parse redisClient env db userId q
        now1 now2).response.status = 200) := by
  have hmiss : ∀ (redisClient : Option RedisData) (env : RedisEnv),
      cacheRead JSON_parse redisClient env (cacheKey userId q) now1 = none →
      (eventSummary JSON_stringify JSON_parse redisClient env db userId q now1 now2).response
        = ⟨200, SummaryBody.fresh (formatResponse q total0 rows3)⟩ := by
    intro redisClient env h
    rw [eventSummary_of_miss JSON_stringify JSON_parse redisClient env db userId q now1 now2
      rows1 totals rows3 total0 h h1 h2 h3]
  refine ⟨?_, ?_, ?_, ?_, ?_, ?_⟩
  · intro data hd
    apply hmiss
    simp [cacheRead, redisHealthy, redisGet, hd]
  · intro env
    apply hmiss
    rfl
  · intro data env hr
    apply hmiss
    simp [cacheRead, hr]
  · intro data env hg
    apply hmiss
    simp [cacheRead, hg]
  · intro data env _ hd
    apply hmiss
    simp [cacheRead, hd]
  · intro redisClient env
    cases h : cacheRead JSON_parse redisClient env (cacheKey userId q) now1 with
    | none => rw [hmiss redisClient env h]
    | some j =>
      rw [eventSummary_of_hit JSON_stringify JSON_parse redisClient env db userId q now1 now2
        j h]

/-- C9 at a concrete input: no Redis client, a store that answers every query. -/
theorem eventSummary_survives_cache_failure_witness :
    (eventSummary (fun _ => "p") (fun s => some s) none redisHealthy sampleDb 1
        ⟨none, none, none, none⟩ 0 0).response
      = ⟨200, SummaryBody.fresh samplePayload⟩ :=
  (eventSummary_survives_cache_failure (fun _ => "p") (fun s => some s) sampleDb 1
    ⟨none, none, none, none⟩ 0 0 _ [] _ _ rfl rfl rfl).2.1 redisHealthy

/-! ### The encoding of `cacheKey` -/

theorem split_at_separator (c : Char) :
    ∀ (a a' r r' : List Char), c ∉ a → c ∉ a' → a ++ c :: r = a' ++ c :: r' →
      a = a' ∧ r = r' := by
  intro a
  induction a with
  | nil =>
    intro a' r r' _ ha' h
    cases a' with
    | nil => simpa using h
    | cons y t' =>
      simp only [List.nil_append, List.cons_append, List.cons.injEq] at h
      exact absurd (h.1 ▸ List.mem_cons_self _ _) ha'
  | cons x t ih =>
    intro a' r r' ha ha' h
    cases a' with
    | nil =>
      simp only [List.nil_append, List.cons_append, List.cons.injEq] at h
      exact absurd (h.1 ▸ List.mem_cons_self _ _) ha
    | cons y t' =>
      simp only [List.cons_append, List.cons.injEq] at h
      have ht : c ∉ t := fun hm => ha (List.mem_cons_of_mem _ hm)
      have ht' : c ∉ t' := fun hm => ha' (List.mem_cons_of_mem _ hm)
      obtain ⟨h1, h2⟩ := ih t' r r' ht ht' h.2
      exact ⟨by rw [h.1, h1], h2⟩

theorem orDefault_noColon (v : Option String) (d : String) (hv : noColon v)
    (hd : ':' ∉ d.data) : ':' ∉ (orDefault v d).data := by
  cases v with
  | none => exact hd
  | some s =>
    by_cases hs : s = ""
    · simpa [orDefault, hs] using hd
    · simpa [orDefault, hs] using hv s rfl

theorem orDefault_inj (v1 v2 : Option String) (d : String)
    (h1 : v1 ≠ some d) (h2 : v2 ≠ some d) (h : orDefault v1 d = orDefault v2 d) :
    normalise v1 = normalise v2 := by
  cases v1 with
  | none =>
    cases v2 with
    | none => rfl
    | some s2 =>
      by_cases e2 : s2 = ""
      · simp [normalise, e2]
      · simp only [orDefault, e2, if_false] at h
        exact absurd (by rw [h]) h2
  | some s1 =>
    by_cases e1 : s1 = ""
    · cases v2 with
      | none => simp [normalise, e1]
      | some s2 =>
        by_cases e2 : s2 = ""
        · simp [normalise, e1, e2]
        · simp only [orDefault, e1, e2, if_false, if_true] at h
          exact absurd (by rw [h]) h2
    · cases v2 with
      | none =>
        simp only [orDefault, e1, if_false] at h
        exact absurd (by rw [h]) h1
      | some s2 =>
        by_cases e2 : s2 = ""
        · simp only [orDefault, e1, e2, if_false, if_true] at h
          exact absurd (by rw [h]) h1
        · simp only [orDefault, e1, e2, if_false] at h
          simp [normalise, e1, e2, h]

theorem cacheKey_fields_eq (userId : Nat) (q1 q2 : SummaryQuery)
    (ha1 : noColon q1.app_id) (he1 : noColon q1.event) (hs1 : noColon q1.startDate)
    (ha2 : noColon q2.app_id) (he2 : noColon q2.event) (hs2 : noColon q2.startDate)
    (h : cacheKey userId q1 = cacheKey userId q2) :
    orDefault q1.app_id "all" = orDefault q2.app_id "all" ∧
    orDefault q1.event "all" = orDefault q2.event "all" ∧
    orDefault q1.startDate "none" = orDefault q2.startDate "none" ∧
    orDefault q1.endDate "none" = orDefault q2.endDate "none" := by
  have hall : ':' ∉ "all".data := by decide
  have hnone : ':' ∉ "none".data := by decide
  have hd := congrArg String.data h
  simp only [cacheKey, String.data_append, List.append_assoc, List.append_cancel_left_eq] at hd
  simp only [List.singleton_append] at hd
  obtain ⟨hA, hd⟩ := split_at_separator ':' _ _ _ _
    (orDefault_noColon _ _ ha1 hall) (orDefault_noColon _ _ ha2 hall) hd
  obtain ⟨hE, hd⟩ := split_at_separator ':' _ _ _ _
    (orDefault_noColon _ _ he1 hall) (orDefault_noColon _ _ he2 hall) hd
  obtain ⟨hS, hD⟩ := split_at_separator ':' _ _ _ _
    (orDefault_noColon _ _ hs1 hnone) (orDefault_noColon _ _ hs2 hnone) hd
  exact ⟨String.ext hA, String.ext hE, String.ext hS, String.ext hD⟩

/-- C10 fails as stated: an `app_id` equal to the sentinel `all` gets the key of the
request without `app_id`, and a colon lets `a:b`, `c` and `a`, `b:c` share a key, although
the normalised tuples differ. -/
theorem cacheKey_collides :
    (normalisedTuple ⟨none, none, none, some "all"⟩ ≠ normalisedTuple ⟨none, none, none, none⟩ ∧
      cacheKey 1 ⟨none, none, none, some "all"⟩ = cacheKey 1 ⟨none, none, none, none⟩) ∧
    (normalisedTuple ⟨some "c", none, none, some "a:b"⟩
        ≠ normalisedTuple ⟨some "b:c", none, none, some "a"⟩ ∧
      cacheKey 1 ⟨some "c", none, none, some "a:b"⟩
        = cacheKey 1 ⟨some "b:c", none, none, some "a"⟩) := by
  decide

/-- C10 as amended: for one owner id, two filter tuples whose `app_id`, `event` and
`startDate` contain no colon and none of whose fields equals its own sentinel
(`all` for `app_id` and `event`, `none` for the dates) have different cache keys whenever
they differ after mapping empty to omitted. -/
theorem cacheKey_injective_of_encodingSafe (userId : Nat) (q1 q2 : SummaryQuery)
    (h1 : EncodingSafe q1) (h2 : EncodingSafe q2)
    (hne : normalisedTuple q1 ≠ normalisedTuple q2) :
    cacheKey userId q1 ≠ cacheKey userId q2 := by
  intro h
  obtain ⟨ha1, he1, hs1, na1, ne1, ns1, nd1⟩ := h1
  obtain ⟨ha2, he2, hs2, na2, ne2, ns2, nd2⟩ := h2
  obtain ⟨hA, hE, hS, hD⟩ := cacheKey_fields_eq userId q1 q2 ha1 he1 hs1 ha2 he2 hs2 h
  apply hne
  simp only [normalisedTuple,
    orDefault_inj _ _ "all" na1 na2 hA,
    orDefault_inj _ _ "all" ne1 ne2 hE,
    orDefault_inj _ _ "none" ns1 ns2 hS,
    orDefault_inj _ _ "none" nd1 nd2 hD]

/-- C10 as amended, at a concrete input: the events `click` and `view` of application 7. -/
theorem cacheKey_injective_of_encodingSafe_witness :
    cacheKey 1 ⟨some "click", none, none, some "7"⟩
      ≠ cacheKey 1 ⟨some "view", none, none, some "7"⟩ :=
  cacheKey_injective_of_encodingSafe 1 ⟨some "click", none, none, some "7"⟩
    ⟨some "view", none, none, some "7"⟩
    ⟨fun s h => (by cases h; decide), fun s h => (by cases h; decide),
      fun s h => (by cases h), by decide, by decide, by decide, by decide⟩
    ⟨fun s h => (by cases h; decide), fun s h => (by cases h; decide),
      fun s h => (by cases h), by decide, by decide, by decide, by decide⟩
    (by decide)

/-! ### Registration through the pool -/

/-- C7 at the failing input: owner 9 registers `Shop`; the pool runs `BEGIN` on
connection 0 and the `applications` insert on connection 1, and the `api_keys` insert
is rejected.  The handler answers 500 and the `applications` row stays committed,
without any key.  With every statement on connection 0 the same failure leaves the
tables empty. -/
theorem register_not_atomic_across_connections :
    ((register (fun s => s) "ab" twoIdleConnections (fun n => if n = 1 then 1 else 0)
        (fun n => n == 2) (some "Shop") none 9).response.status = 500 ∧
      (register (fun s => s) "ab" twoIdleConnections (fun n => if n = 1 then 1 else 0)
        (fun n => n == 2) (some "Shop") none 9).pg.committed
        = ⟨[⟨1, 9, "Shop", none⟩], []⟩) ∧
    ((register (fun s => s) "ab" twoIdleConnections (fun _ => 0)
        (fun n => n == 2) (some "Shop") none 9).response.status = 500 ∧
      (register (fun s => s) "ab" twoIdleConnections (fun _ => 0)
        (fun n => n == 2) (some "Shop") none 9).pg.committed = ⟨[], []⟩) := by
  decide

end AnalyticsApp
